import Mathlib

/-!
# Verification of the Waukesha market-stats extraction code

Shallow embedding of the serverless extraction handlers of the
`waukesha-market-stats` repository:

* `src/unnamed/part_003` — the `parseRprStats` variant with the
  `%`/`MoM` noise filter, the `sane` range validators and the
  `findForward` disambiguation paths (embedded below as `parseRprStats`);
* `src/api/waukesha-live.js` (first variant) — the simpler
  `parseRprStats` without range validation (embedded as
  `parseRprStatsLive`), plus its handler's catch path;
* `src/api/waukesha.js` (first variant) — the handler that returns
  502/500/422 statuses (embedded as `waukeshaHandlerStatus`);
* `src/unnamed/part_001` (second variant) — `fallbackMonths` and its
  catch path;
* `src/api/rates.js` — `normalizeRateApr`.

JavaScript numbers are modelled as exact rationals (`ℚ`); `null` and
`undefined` are modelled as `Option.none`.  Regular-expression tests are
embedded as executable character-list matchers implementing exactly the
source patterns (case-insensitive, with the same alternation and
boundary semantics on the label vocabulary involved).
-/

namespace Waukesha

/-! ## Character utilities (JS `\s`, `\w`, `\d`, case-insensitivity) -/

/-- JS `\s` whitespace class (ASCII part: space, tab, LF, CR, VT, FF). -/
def isWs (c : Char) : Bool :=
  c = ' ' || c = '\t' || c = '\n' || c = '\r' || c = '\x0b' || c = '\x0c'

/-- JS `\w` word-character class `[A-Za-z0-9_]` (ASCII). -/
def isWordChar (c : Char) : Bool :=
  ('a' ≤ c && c ≤ 'z') || ('A' ≤ c && c ≤ 'Z') || c.isDigit || c = '_'

/-- ASCII lower-casing, modelling the `/i` regex flag on the label vocabulary. -/
def lcase (c : Char) : Char :=
  if 'A' ≤ c && c ≤ 'Z' then Char.ofNat (c.toNat + 32) else c

/-! ## Pattern matchers

A matcher takes the character list at a candidate start position and
returns the remainder of the list after a successful match (`none` on
failure).  Alternation order and the optional-group backtracking of the
source regexes are reproduced explicitly. -/

/-- Case-insensitive literal match of `pat` as a prefix, returning the rest. -/
def litCI : List Char → List Char → Option (List Char)
  | [], cs => some cs
  | _ :: _, [] => none
  | p :: ps, c :: cs => if lcase c = lcase p then litCI ps cs else none

/-- Drop a maximal run of whitespace. -/
def dropWs : List Char → List Char
  | [] => []
  | c :: cs => if isWs c then dropWs cs else c :: cs

/-- `\s+`: at least one whitespace character, consumed maximally
(equivalent to the greedy regex since no token in the label vocabulary
starts with whitespace). -/
def ws1 : List Char → Option (List Char)
  | [] => none
  | c :: cs => if isWs c then some (dropWs cs) else none

/-- `\s*`: any whitespace, consumed maximally. -/
def ws0 (cs : List Char) : Option (List Char) :=
  some (dropWs cs)

/-- Sequencing of matchers. -/
def andThen (m₁ m₂ : List Char → Option (List Char)) (cs : List Char) :
    Option (List Char) :=
  (m₁ cs).bind m₂

/-- Ordered alternation of matchers (first success wins, as in regex). -/
def orMatch (m₁ m₂ : List Char → Option (List Char)) (cs : List Char) :
    Option (List Char) :=
  match m₁ cs with
  | some r => some r
  | none => m₂ cs

/-- A case-insensitive word literal. -/
def lit (s : String) : List Char → Option (List Char) :=
  litCI s.toList

/-- `lit s` followed by `\s+`. -/
def litWs (s : String) : List Char → Option (List Char) :=
  andThen (lit s) ws1

/-- Does the string contain a match of `m` at any position?
(Models an unanchored `re.test`.) -/
def containsPat (m : List Char → Option (List Char)) : List Char → Bool
  | [] => (m []).isSome
  | c :: rest => (m (c :: rest)).isSome || containsPat m rest

/-- Case-insensitive substring containment. -/
def containsCI (pat : String) (cs : List Char) : Bool :=
  containsPat (lit pat) cs

/-- Does the list contain the character `ch`? -/
def containsChar (ch : Char) : List Char → Bool
  | [] => false
  | c :: rest => c = ch || containsChar ch rest

/-- `(\s|$)` applied to the remainder after a match. -/
def tailOk : List Char → Bool
  | [] => true
  | c :: _ => isWs c

/-- `(^|\s) inner (\s|$)`: scans all positions, keeping track of whether
the previous character was whitespace (or the position is the start). -/
def containsAnchoredB (m : List Char → Bool) : Bool → List Char → Bool
  | atB, [] => atB && m []
  | atB, c :: rest => (atB && m (c :: rest)) || containsAnchoredB m (isWs c) rest

/-- Turns a remainder-style matcher into a position test with
a trailing `(\s|$)` boundary. -/
def withTail (m : List Char → Option (List Char)) (cs : List Char) : Bool :=
  match m cs with
  | some r => tailOk r
  | none => false

/-- `\b inner \b`: word-boundary-delimited containment; tracks whether
the previous character is a word character. -/
def containsWordB (m : List Char → Option (List Char)) : Bool → List Char → Bool
  | prevW, [] => !prevW && (match m [] with | some r => r.all (fun c => !isWordChar c) | none => false)
  | prevW, c :: rest =>
      (!prevW && (match m (c :: rest) with
        | some r => (match r with | [] => true | c' :: _ => !isWordChar c')
        | none => false))
      || containsWordB m (isWordChar c) rest

/-! ## Numeric token scanners (`firstInt`, `firstFloat`)

`firstInt`: first match of the pattern `-?\d{1,3}(?:,\d{3})*|\d+`, commas
stripped, parsed as an integer.  (The `\d+` alternative is unreachable:
wherever it could match, the first alternative already matches.)
`firstFloat`: first match of `-?\d+(?:\.\d+)?` parsed as a number. -/

/-- Numeric value of a digit list (most significant first). -/
def digitsToNat (ds : List Char) : Nat :=
  ds.foldl (fun a c => a * 10 + (c.toNat - 48)) 0

/-- Take up to `n` leading digits. -/
def takeDigits : Nat → List Char → List Char × List Char
  | 0, cs => ([], cs)
  | _ + 1, [] => ([], [])
  | n + 1, c :: cs =>
    if c.isDigit then
      let (ds, r) := takeDigits n cs
      (c :: ds, r)
    else ([], c :: cs)

/-- Take a maximal run of digits. -/
def takeDigitRun : List Char → List Char × List Char
  | [] => ([], [])
  | c :: cs =>
    if c.isDigit then
      let (ds, r) := takeDigitRun cs
      (c :: ds, r)
    else ([], c :: cs)

/-- Greedy `(?:,\d{3})*` groups; returns the digits with commas stripped. -/
def commaGroups : List Char → List Char
  | ',' :: d₁ :: d₂ :: d₃ :: rest =>
    if d₁.isDigit && d₂.isDigit && d₃.isDigit then
      d₁ :: d₂ :: d₃ :: commaGroups rest
    else []
  | _ => []

/-- Match of `-?\d{1,3}(?:,\d{3})*` at the current position, as a rational. -/
def intAt : List Char → Option ℚ
  | [] => none
  | '-' :: rest =>
    match rest with
    | c :: _ =>
      if c.isDigit then
        let (ds, r) := takeDigits 3 rest
        some (-(digitsToNat (ds ++ commaGroups r) : ℚ))
      else none
    | [] => none
  | c :: rest =>
    if c.isDigit then
      let (ds, r) := takeDigits 3 (c :: rest)
      some ((digitsToNat (ds ++ commaGroups r) : ℚ))
    else none

/-- Leftmost match of the `firstInt` regex over the whole list. -/
def firstIntChars : List Char → Option ℚ
  | [] => none
  | c :: rest =>
    match intAt (c :: rest) with
    | some v => some v
    | none => firstIntChars rest

/-- Match of `-?\d+(?:\.\d+)?` at the current position, as a rational. -/
def floatAt : List Char → Option ℚ
  | [] => none
  | '-' :: rest =>
    match rest with
    | c :: _ =>
      if c.isDigit then
        let (ip, r) := takeDigitRun rest
        match r with
        | '.' :: f :: fr =>
          if f.isDigit then
            let (fp, _) := takeDigitRun (f :: fr)
            some (-((digitsToNat ip : ℚ) + (digitsToNat fp : ℚ) / (10 ^ fp.length : ℚ)))
          else some (-(digitsToNat ip : ℚ))
        | _ => some (-(digitsToNat ip : ℚ))
      else none
    | [] => none
  | c :: rest =>
    if c.isDigit then
      let (ip, r) := takeDigitRun (c :: rest)
      match r with
      | '.' :: f :: fr =>
        if f.isDigit then
          let (fp, _) := takeDigitRun (f :: fr)
          some ((digitsToNat ip : ℚ) + (digitsToNat fp : ℚ) / (10 ^ fp.length : ℚ))
        else some ((digitsToNat ip : ℚ))
      | _ => some ((digitsToNat ip : ℚ))
    else none

/-- Leftmost match of the `firstFloat` regex over the whole list. -/
def firstFloatChars : List Char → Option ℚ
  | [] => none
  | c :: rest =>
    match floatAt (c :: rest) with
    | some v => some v
    | none => firstFloatChars rest

/-- `firstInt` of the source (on one already-split line). -/
def firstInt (line : List Char) : Option ℚ :=
  firstIntChars line

/-- `firstFloat` of the source (on one already-split line). -/
def firstFloat (line : List Char) : Option ℚ :=
  firstFloatChars line

/-! ## Line splitting: `txt.split(/\n/).map(s => s.trim()).filter(Boolean)` -/

/-- Split a character list on newline characters. -/
def splitNl : List Char → List (List Char)
  | [] => [[]]
  | '\n' :: rest => [] :: splitNl rest
  | c :: rest =>
    match splitNl rest with
    | l :: ls => (c :: l) :: ls
    | [] => [[c]]

/-- JS `String.prototype.trim` on the ASCII whitespace involved. -/
def trimChars (cs : List Char) : List Char :=
  ((cs.dropWhile isWs).reverse.dropWhile isWs).reverse

/-- The nonempty trimmed lines of the input text. -/
def toLines (txt : String) : List (List Char) :=
  ((splitNl txt.toList).map trimChars).filter (fun l => !l.isEmpty)

/-! ## Label tests of `part_003`'s `parseRprStats` -/

/-- Inner pattern `median\s+(sold\s+)?price` (with the optional-group
backtracking made explicit). -/
def medianPriceM (cs : List Char) : Option (List Char) :=
  (andThen (litWs "median")
    (orMatch (andThen (litWs "sold") (lit "price")) (lit "price"))) cs

/-- `/(median\s+(sold\s+)?price)/i.test` — unanchored. -/
def reMedianPriceTest (cs : List Char) : Bool :=
  containsPat medianPriceM cs

/-- Inner pattern `median\s+days\s+(in\s+rpr|on\s+market)|days\s+on\s+market`. -/
def domM (cs : List Char) : Option (List Char) :=
  (orMatch
    (andThen (litWs "median")
      (andThen (litWs "days")
        (orMatch (andThen (litWs "in") (lit "rpr"))
                 (andThen (litWs "on") (lit "market")))))
    (andThen (litWs "days") (andThen (litWs "on") (lit "market")))) cs

/-- `/(median\s+days\s+(in\s+rpr|on\s+market)|days\s+on\s+market)/i.test`. -/
def reDomTest (cs : List Char) : Bool :=
  containsPat domM cs

/-- Inner pattern `months\s+of\s+inventory|months\s+(of\s+)?supply`. -/
def monthsM (cs : List Char) : Option (List Char) :=
  (andThen (litWs "months")
    (orMatch
      (andThen (litWs "of") (orMatch (lit "inventory") (lit "supply")))
      (lit "supply"))) cs

/-- `/(months\s+of\s+inventory|months\s+(of\s+)?supply)/i.test`. -/
def reMonthsTest (cs : List Char) : Bool :=
  containsPat monthsM cs

/-- Inner pattern `closed\s+sales|sold\s+listings|total\s+sales|closed\s+listings`. -/
def closedAnyM (cs : List Char) : Option (List Char) :=
  (orMatch
    (andThen (litWs "closed") (orMatch (lit "sales") (lit "listings")))
    (orMatch
      (andThen (litWs "sold") (lit "listings"))
      (andThen (litWs "total") (lit "sales")))) cs

/-- `/(closed\s+sales|sold\s+listings|total\s+sales|closed\s+listings)/i.test`. -/
def reClosedAnyTest (cs : List Char) : Bool :=
  containsPat closedAnyM cs

/-- `/(median|price|active|inventory|months|supply|list\s*price|sold\s*to\s*list)/i.test`. -/
def junkClosed (cs : List Char) : Bool :=
  containsCI "median" cs || containsCI "price" cs || containsCI "active" cs ||
  containsCI "inventory" cs || containsCI "months" cs || containsCI "supply" cs ||
  containsPat (andThen (lit "list") (andThen ws0 (lit "price"))) cs ||
  containsPat (andThen (lit "sold") (andThen ws0 (andThen (lit "to") (andThen ws0 (lit "list"))))) cs

/-- Inner pattern `active\s+(listings|residential\s+listings)`. -/
def activeLabelM (cs : List Char) : Option (List Char) :=
  (andThen (litWs "active")
    (orMatch (lit "listings") (andThen (litWs "residential") (lit "listings")))) cs

/-- `/(^|\s)active\s+(listings|residential\s+listings)(\s|$)/i.test`. -/
def reActiveLabelTest (cs : List Char) : Bool :=
  containsAnchoredB (withTail activeLabelM) true cs

/-- `/(sold|sales|median|price|list\s*price)/i.test`. -/
def junkActive (cs : List Char) : Bool :=
  containsCI "sold" cs || containsCI "sales" cs || containsCI "median" cs ||
  containsCI "price" cs ||
  containsPat (andThen (lit "list") (andThen ws0 (lit "price"))) cs

/-- `/%|MoM/i.test` — the noise filter of `pickNumberAround`. -/
def pctOrMoM (cs : List Char) : Bool :=
  containsChar '%' cs || containsCI "MoM" cs

/-- The twelve month-name literals of `monthRegex`. -/
def monthNameM (cs : List Char) : Option (List Char) :=
  (orMatch (lit "january") (orMatch (lit "february") (orMatch (lit "march")
    (orMatch (lit "april") (orMatch (lit "may") (orMatch (lit "june")
    (orMatch (lit "july") (orMatch (lit "august") (orMatch (lit "september")
    (orMatch (lit "october") (orMatch (lit "november") (lit "december")))))))))))) cs

/-- `/\b(January|...|December)\b/i.test`. -/
def monthWord (cs : List Char) : Bool :=
  containsWordB monthNameM false cs

/-- Pattern `20\d{2}` at the current position. -/
def yearM : List Char → Option (List Char)
  | '2' :: '0' :: a :: b :: rest =>
    if a.isDigit && b.isDigit then some rest else none
  | _ => none

/-- `/\b20\d{2}\b/.test`. -/
def yearToken (cs : List Char) : Bool :=
  containsWordB yearM false cs

/-- `/\$|price/i.test` — used by `sane.price` and `sane.active`. -/
def dollarOrPrice (cs : List Char) : Bool :=
  containsChar '$' cs || containsCI "price" cs

/-! ## Label tests of `waukesha-live.js`'s `parseRprStats`
(all anchored as `(^|\s) ... (\s|$)`). -/

/-- `/(^|\s)median\s+(sold\s+)?price(\s|$)/i.test`. -/
def liveMedianPriceTest (cs : List Char) : Bool :=
  containsAnchoredB (withTail medianPriceM) true cs

/-- Inner pattern `closed\s+sales|sold\s+listings|closed\s+listings`. -/
def liveClosedM (cs : List Char) : Option (List Char) :=
  (orMatch
    (andThen (litWs "closed") (orMatch (lit "sales") (lit "listings")))
    (andThen (litWs "sold") (lit "listings"))) cs

/-- `/(^|\s)(closed\s+sales|sold\s+listings|closed\s+listings)(\s|$)/i.test`. -/
def liveClosedTest (cs : List Char) : Bool :=
  containsAnchoredB (withTail liveClosedM) true cs

/-- `/(^|\s)(median\s+days\s+(in\s+rpr|on\s+market)|days\s+on\s+market)(\s|$)/i.test`. -/
def liveDomTest (cs : List Char) : Bool :=
  containsAnchoredB (withTail domM) true cs

/-- `/(^|\s)(months\s+of\s+inventory|months\s+(of\s+)?supply)(\s|$)/i.test`. -/
def liveMonthsTest (cs : List Char) : Bool :=
  containsAnchoredB (withTail monthsM) true cs

/-- `month\s+end` with trailing `(\s|$)`, searched anywhere in the rest of
the line — implements the `.*month\s+end(\s|$)` part of the fifth
`active` alternative (with the backtracking of `.*` made explicit). -/
def monthEndSearch : List Char → Bool
  | [] => false
  | c :: rest =>
    withTail (andThen (litWs "month") (lit "end")) (c :: rest) || monthEndSearch rest

/-- Position test for
`(active\s+listings|active\s+inventory|inventory\s+of\s+homes\s+for\s+sale|active\s+residential\s+listings|active\s+listings.*month\s+end)(\s|$)`. -/
def liveActiveAt (cs : List Char) : Bool :=
  withTail (andThen (litWs "active") (lit "listings")) cs ||
  withTail (andThen (litWs "active") (lit "inventory")) cs ||
  withTail (andThen (litWs "inventory") (andThen (litWs "of")
    (andThen (litWs "homes") (andThen (litWs "for") (lit "sale"))))) cs ||
  withTail (andThen (litWs "active") (andThen (litWs "residential") (lit "listings"))) cs ||
  (match (andThen (litWs "active") (lit "listings")) cs with
   | some r => monthEndSearch r
   | none => false)

/-- The `active` listings test of `waukesha-live.js`'s parser. -/
def liveActiveTest (cs : List Char) : Bool :=
  containsAnchoredB liveActiveAt true cs

/-! ## Rounding and range validators (`round1`, `sane`) -/

/-- JS `Math.round` (round half toward `+∞`), on the exact rational model. -/
def jsRound (q : ℚ) : ℤ :=
  ⌊q + 1/2⌋

/-- `round1(n) = Math.round(n*10)/10`. -/
def round1 (q : ℚ) : ℚ :=
  (jsRound (q * 10) : ℚ) / 10

/-- JS `a ?? b` on nullable numbers. -/
def jsOr (a b : Option ℚ) : Option ℚ :=
  match a with
  | some v => some v
  | none => b

/-- `sane.price(n, line)` of `part_003` (both branches of its
`/\$|price/i` test apply the same `[20000, 2000000]` range check). -/
def sanePrice (n : Option ℚ) (line : List Char) : Option ℚ :=
  match n with
  | none => none
  | some v =>
    if dollarOrPrice line then
      (if 20000 ≤ v ∧ v ≤ 2000000 then some v else none)
    else
      (if 20000 ≤ v ∧ v ≤ 2000000 then some v else none)

/-- `sane.closed(n)`: accepts `0 ≤ n < 10000`. -/
def saneClosed (n : Option ℚ) : Option ℚ :=
  match n with
  | none => none
  | some v => if 0 ≤ v ∧ v < 10000 then some v else none

/-- `sane.dom(n)`: accepts `0 ≤ n ≤ 365`. -/
def saneDom (n : Option ℚ) : Option ℚ :=
  match n with
  | none => none
  | some v => if 0 ≤ v ∧ v ≤ 365 then some v else none

/-- `sane.mois(n)`: accepts `0 ≤ n < 50`, returning `Math.round(n*10)/10`. -/
def saneMois (n : Option ℚ) : Option ℚ :=
  match n with
  | none => none
  | some v => if 0 ≤ v ∧ v < 50 then some (round1 v) else none

/-- `sane.active(n, line)`: rejects price-looking lines, else accepts
`0 ≤ n < 50000`. -/
def saneActive (n : Option ℚ) (line : List Char) : Option ℚ :=
  match n with
  | none => none
  | some v =>
    if dollarOrPrice line then none
    else if 0 ≤ v ∧ v < 50000 then some v else none

/-! ## Window scanning (`pickNumberAround`, `findForward`)

Both source loops run `for (i = start; i <= Math.min(start + maxAhead,
lines.length - 1); i++)`; `windowScan` reproduces the same iteration
count (`min (maxAhead+1) (length - start)`, with truncated subtraction
covering the empty/offside cases). -/

/-- Scan up to `n` lines, returning the first `pick` hit. -/
def scanCount (pick : List Char → Option α) : List (List Char) → Nat → Option α
  | _, 0 => none
  | [], _ + 1 => none
  | l :: rest, n + 1 =>
    match pick l with
    | some v => some v
    | none => scanCount pick rest n

/-- The bounded forward window common to `pickNumberAround`/`findForward`. -/
def windowScan (arr : List (List Char)) (start maxAhead : Nat)
    (pick : List Char → Option α) : Option α :=
  scanCount pick (arr.drop start) (min (maxAhead + 1) (arr.length - start))

/-- `findForward(arr, start, maxAhead, pick)` of `part_003`. -/
def findForward (arr : List (List Char)) (start maxAhead : Nat)
    (pick : List Char → Option α) : Option α :=
  windowScan arr start maxAhead pick

/-- `pickNumberAround(idx, false, lookAhead)` of `part_003`: skips
`%`/`MoM` lines, then takes the first `firstInt` hit. -/
def pickIntAround (lines : List (List Char)) (idx lookAhead : Nat) : Option ℚ :=
  windowScan lines idx lookAhead (fun ln => if pctOrMoM ln then none else firstInt ln)

/-- `pickNumberAround(idx, true, lookAhead)` of `part_003`. -/
def pickFloatAround (lines : List (List Char)) (idx lookAhead : Nat) : Option ℚ :=
  windowScan lines idx lookAhead (fun ln => if pctOrMoM ln then none else firstFloat ln)

/-- `pickNumberAround(idx, false, lookAhead)` of `waukesha-live.js`:
no noise filter at all. -/
def pickIntAroundLive (lines : List (List Char)) (idx lookAhead : Nat) : Option ℚ :=
  windowScan lines idx lookAhead firstInt

/-- `pickNumberAround(idx, true, lookAhead)` of `waukesha-live.js`. -/
def pickFloatAroundLive (lines : List (List Char)) (idx lookAhead : Nat) : Option ℚ :=
  windowScan lines idx lookAhead firstFloat

/-! ## The metric records -/

/-- The five-key metric record produced per document. -/
structure Stats where
  medianPrice : Option ℚ
  closed : Option ℚ
  dom : Option ℚ
  monthsSupply : Option ℚ
  activeListings : Option ℚ
deriving DecidableEq

/-- `emptyStats()`. -/
def emptyStats : Stats :=
  ⟨none, none, none, none, none⟩

/-- The record's key/value pairs, in source order (its JSON shape). -/
def statsPairs (s : Stats) : List (String × Option ℚ) :=
  [("medianPrice", s.medianPrice), ("closed", s.closed), ("dom", s.dom),
   ("monthsSupply", s.monthsSupply), ("activeListings", s.activeListings)]

/-- `pruneTo5` of `waukesha-live.js` (second variant): keeps exactly the
five UI fields, mapping missing ones to `null`. -/
def pruneTo5 (v : Stats) : Stats :=
  ⟨v.medianPrice, v.closed, v.dom, v.monthsSupply, v.activeListings⟩

/-! ## `parseRprStats` of `part_003` -/

/-- The `closed` callback of both `findForward` calls in the closed branch. -/
def closedPick (ln : List Char) : Option ℚ :=
  if monthWord ln || yearToken ln || junkClosed ln || pctOrMoM ln then none
  else saneClosed (firstInt ln)

/-- `findForward(lines, start, 10, closedPick)`. -/
def closedScan (lines : List (List Char)) (start : Nat) : Option ℚ :=
  findForward lines start 10 closedPick

/-- The value the closed branch would assign for the current line
(`none` falls through to the later branches). -/
def closedOnLine (lines : List (List Char)) (i : Nat) (line : List Char) : Option ℚ :=
  if monthWord line || yearToken line || junkClosed line then
    closedScan lines (i + 1)
  else
    match saneClosed (jsOr (firstInt line) (pickIntAround lines (i + 1) 4)) with
    | some v => some v
    | none => closedScan lines (i + 1)

/-- The `active` callback of the `findForward` calls (rejects a candidate
equal to the already-recorded closed value). -/
def activePick (closed : Option ℚ) (ln : List Char) : Option ℚ :=
  if monthWord ln || yearToken ln || junkActive ln || pctOrMoM ln then none
  else
    match saneActive (firstInt ln) ln with
    | some c => if closed = some c then none else some c
    | none => none

/-- The value the active branch assigns for the current line. -/
def activeOnLine (lines : List (List Char)) (i : Nat) (line : List Char)
    (closed : Option ℚ) : Option ℚ :=
  if yearToken line || monthWord line || junkActive line then
    findForward lines (i + 1) 8 (activePick closed)
  else
    match saneActive (jsOr (firstInt line) (pickIntAround lines (i + 1) 3)) line with
    | some c =>
      if closed = some c then findForward lines (i + 1) 8 (activePick closed)
      else some c
    | none => findForward lines (i + 1) 8 (activePick closed)

/-- The months-supply candidate expression. -/
def moisCandidate (lines : List (List Char)) (i : Nat) (line : List Char) : Option ℚ :=
  if yearToken line || monthWord line then pickFloatAround lines (i + 1) 2
  else jsOr (firstFloat line) (pickFloatAround lines (i + 1) 2)

/-- The `dom`/`months`/`active` branch chain reached when the median and
closed branches do not `continue` on this line. -/
def restAfterClosed (lines : List (List Char)) (i : Nat) (line : List Char)
    (out : Stats) : Stats :=
  if out.dom.isNone && reDomTest line then
    match saneDom (jsOr (firstInt line) (pickIntAround lines (i + 1) 2)) with
    | some v => { out with dom := some v }
    | none => out
  else if out.monthsSupply.isNone && reMonthsTest line then
    match saneMois (moisCandidate lines i line) with
    | some v => { out with monthsSupply := some v }
    | none => out
  else if out.activeListings.isNone && reActiveLabelTest line then
    match activeOnLine lines i line out.closed with
    | some v => { out with activeListings := some v }
    | none => out
  else out

/-- One iteration of `part_003`'s extraction loop on line `i`.  The
median and months/dom/active branches `continue` unconditionally; the
closed branch falls through to the later branches when it finds no
value. -/
def step3 (lines : List (List Char)) (i : Nat) (line : List Char) (out : Stats) : Stats :=
  if out.medianPrice.isNone && reMedianPriceTest line then
    match sanePrice (jsOr (firstInt line) (pickIntAround lines (i + 1) 2)) line with
    | some v => { out with medianPrice := some v }
    | none => out
  else if out.closed.isNone && reClosedAnyTest line then
    match closedOnLine lines i line with
    | some v => { out with closed := some v }
    | none => restAfterClosed lines i line out
  else restAfterClosed lines i line out

/-- The extraction loop (structural recursion over the remaining lines,
with the absolute index threaded for the forward windows). -/
def loop3 (lines : List (List Char)) : List (List Char) → Nat → Stats → Stats
  | [], _, out => out
  | l :: rest, i, out => loop3 lines rest (i + 1) (step3 lines i l out)

/-- `parseRprStats(txt)` of `part_003`. -/
def parseRprStats (txt : String) : Stats :=
  if txt = "" then emptyStats
  else
    let lines := toLines txt
    loop3 lines lines 0 emptyStats

/-! ## `parseRprStats` of `waukesha-live.js` (first variant) -/

/-- One iteration of the `waukesha-live.js` extraction loop: every branch
`continue`s unconditionally, no field-is-null guards, no range
validation, and `monthsSupply` is rounded on assignment. -/
def stepLive (lines : List (List Char)) (i : Nat) (line : List Char) (out : Stats) : Stats :=
  if liveMedianPriceTest line then
    match jsOr (firstInt line) (pickIntAroundLive lines (i + 1) 2) with
    | some v => { out with medianPrice := some v }
    | none => out
  else if liveClosedTest line then
    match jsOr (firstInt line) (pickIntAroundLive lines (i + 1) 3) with
    | some v => { out with closed := some v }
    | none => out
  else if liveDomTest line then
    match jsOr (firstInt line) (pickIntAroundLive lines (i + 1) 2) with
    | some v => { out with dom := some v }
    | none => out
  else if liveMonthsTest line then
    match jsOr (firstFloat line) (pickFloatAroundLive lines (i + 1) 2) with
    | some v => { out with monthsSupply := some (round1 v) }
    | none => out
  else if liveActiveTest line then
    match jsOr (firstInt line) (pickIntAroundLive lines (i + 1) 3) with
    | some v => { out with activeListings := some v }
    | none => out
  else out

/-- The `waukesha-live.js` extraction loop. -/
def loopLive (lines : List (List Char)) : List (List Char) → Nat → Stats → Stats
  | [], _, out => out
  | l :: rest, i, out => loopLive lines rest (i + 1) (stepLive lines i l out)

/-- `parseRprStats(txt)` of `waukesha-live.js` (first variant). -/
def parseRprStatsLive (txt : String) : Stats :=
  if txt = "" then emptyStats
  else
    let lines := toLines txt
    loopLive lines lines 0 emptyStats

/-! ## Spec-side rounding

Modelled from the spec: "round-half-away-from-zero at one decimal
digit", to be compared with the code's `round1`. -/

/-- Round half away from zero at one decimal place (the spec's wording). -/
def rhafz1 (q : ℚ) : ℚ :=
  if 0 ≤ q then (⌊10 * q + 1/2⌋ : ℚ) / 10
  else -((⌊10 * (-q) + 1/2⌋ : ℚ) / 10)

/-! ## The `updatedAt` priority logic of `waukesha-live.js`

The handler first takes the newest `Last-Modified` across the two
documents, else a valid `WAU_UPDATED_AT` environment override, else
(after parsing) the first day of the detected month label; dates are
kept abstract (epoch milliseconds / the label's year and month). -/

/-- Which source the `updatedAt` field was taken from. -/
inductive UpdatedAtSource where
  | fromLastModified (maxMillis : ℤ)
  | fromEnvOverride (s : String)
  | fromMonthLabel (yy mm : ℤ)
deriving DecidableEq

/-- `/^\d{4}-\d{2}-\d{2}$/.test`. -/
def isYmdString (s : String) : Bool :=
  match s.toList with
  | [a, b, c, d, '-', e, f, '-', g, h] =>
    a.isDigit && b.isDigit && c.isDigit && d.isDigit &&
    e.isDigit && f.isDigit && g.isDigit && h.isDigit
  | _ => false

/-- `Math.max(...lmDates)` on a nonempty list (guarded by the caller). -/
def maxMillis : List ℤ → ℤ
  | [] => 0
  | x :: xs => xs.foldl max x

/-- Lines 20–27 and 48–51 of `waukesha-live.js`: the priority order for
`updatedAt`. -/
def computeUpdatedAt (lmDates : List ℤ) (env : Option String) (yy mm : ℤ) :
    UpdatedAtSource :=
  if lmDates ≠ [] then .fromLastModified (maxMillis lmDates)
  else
    match env with
    | some s =>
      if !s.isEmpty && isYmdString s then .fromEnvOverride s
      else .fromMonthLabel yy mm
    | none => .fromMonthLabel yy mm

/-! ## Handler response shapes -/

/-- The single-family report URL. -/
def sfUrl : String :=
  "https://www.narrpr.com/reports-v2/c296fac6-035d-4e9a-84fd-28455ab0339f/pdf"

/-- The condo report URL. -/
def condoUrl : String :=
  "https://www.narrpr.com/reports-v2/5a675486-5c7b-4bb0-9946-0cffa3070f05/pdf"

/-- One month's entry in the `months` object. -/
structure MonthEntry where
  sf : Stats
  condo : Stats
  sfReport : String
  condoReport : String
deriving DecidableEq

/-- The JSON response shape the claims speak about (status code, the
`months` mapping, and the advisory `error` field). -/
structure ApiResponse where
  status : Nat
  months : List (String × MonthEntry)
  error : Option String
deriving DecidableEq

/-- The `waukesha-live.js` handler as a function of the two document
fetch outcomes (`Promise.all` rejects as soon as either fetch/parse
fails, landing in the catch branch, which answers 200 with `emptyStats`
and the error string). -/
def liveHandler (sfFetch condoFetch : Except String String)
    (key todayKey : String) : ApiResponse :=
  match sfFetch, condoFetch with
  | .ok sfText, .ok condoText =>
    { status := 200
      months := [(key, ⟨parseRprStatsLive sfText, parseRprStatsLive condoText, sfUrl, condoUrl⟩)]
      error := none }
  | .error e, _ =>
    { status := 200
      months := [(todayKey, ⟨emptyStats, emptyStats, "https://www.narrpr.com/", "https://www.narrpr.com/"⟩)]
      error := some e }
  | .ok _, .error e =>
    { status := 200
      months := [(todayKey, ⟨emptyStats, emptyStats, "https://www.narrpr.com/", "https://www.narrpr.com/"⟩)]
      error := some e }

/-- Upstream outcome for `waukesha.js`'s single fetch. -/
inductive Upstream where
  | fetchRejects (msg : String)
  | respNotOk (status : Nat)
  | okNonPdf (contentType : String)
  | okPdf (text : String)

/-- The response status of the `waukesha.js` handler (first variant):
a rejected fetch throws into the catch branch (500), a non-OK upstream
response returns 502, a non-PDF body returns 502, and a parsed document
returns 422 when required metrics are missing, else 200.  The
required-metrics check is abstracted as `requiredMissing`. -/
def waukeshaHandlerStatus (u : Upstream) (requiredMissing : String → Bool) : Nat :=
  match u with
  | .fetchRejects _ => 500
  | .respNotOk _ => 502
  | .okNonPdf _ => 502
  | .okPdf text => if requiredMissing text then 422 else 200

/-- Is the status a server error (5xx)? -/
def is5xx (n : Nat) : Bool :=
  500 ≤ n && n ≤ 599

/-! ## `fallbackMonths` of `part_001` (second variant) -/

/-- The hard-coded 2025-09 single-family fallback record. -/
def fbSf2509 : Stats :=
  ⟨some 459000, some 412, some 18, some (21/10), some 785⟩

/-- The hard-coded 2025-09 condo fallback record. -/
def fbCondo2509 : Stats :=
  ⟨some 289000, some 126, some 16, some (18/10), some 214⟩

/-- The hard-coded 2025-08 single-family fallback record. -/
def fbSf2508 : Stats :=
  ⟨some 452000, some 398, some 19, some (20/10), some 762⟩

/-- The hard-coded 2025-08 condo fallback record. -/
def fbCondo2508 : Stats :=
  ⟨some 282000, some 119, some 17, some (17/10), some 205⟩

/-- `fallbackMonths()` of `part_001`. -/
def fallbackMonths : List (String × MonthEntry) :=
  [("2025-09", ⟨fbSf2509, fbCondo2509, sfUrl, condoUrl⟩),
   ("2025-08", ⟨fbSf2508, fbCondo2508, sfUrl, condoUrl⟩)]

/-- The catch branch of `part_001`'s handler: status 200, the fallback
sample as the `months` mapping, and `error: "partial"`. -/
def fallbackCatchResponse : ApiResponse :=
  { status := 200, months := fallbackMonths, error := some "partial" }

/-- Does every present value of the record pass the corresponding
`sane` validator (with no line context)? -/
def statsAllSane (s : Stats) : Prop :=
  (∀ v, s.medianPrice = some v → sanePrice (some v) [] = some v) ∧
  (∀ v, s.closed = some v → saneClosed (some v) = some v) ∧
  (∀ v, s.dom = some v → saneDom (some v) = some v) ∧
  (∀ v, s.monthsSupply = some v → saneMois (some v) = some v) ∧
  (∀ v, s.activeListings = some v → saneActive (some v) [] = some v)

/-! ## `normalizeRateApr` of `rates.js` -/

/-- `normalizeRateApr(rate, apr)`: lines 227–235 of `rates.js` (values
modelled post-`parseFloat`; JS `undefined` is `none`). -/
def normalizeRateApr (rate apr : Option ℚ) : Option ℚ × Option ℚ :=
  match rate, apr with
  | some r, none => (some r, none)
  | none, some a => (some a, some a)
  | some r, some a => if a < r then (some a, some r) else (some r, some a)
  | none, none => (none, none)

/-! ## Helper lemmas -/

theorem jsOr_eq_some {a b : Option ℚ} {v : ℚ} (h : jsOr a b = some v) :
    a = some v ∨ (a = none ∧ b = some v) := by
  cases a with
  | none => exact Or.inr ⟨rfl, h⟩
  | some w => exact Or.inl h

theorem sanePrice_range {n : Option ℚ} {line : List Char} {v : ℚ}
    (h : sanePrice n line = some v) : 20000 ≤ v ∧ v ≤ 2000000 := by
  cases n with
  | none => simp [sanePrice] at h
  | some w =>
    simp only [sanePrice] at h
    split at h <;> split at h <;> simp_all

theorem saneClosed_range {n : Option ℚ} {v : ℚ}
    (h : saneClosed n = some v) : 0 ≤ v ∧ v < 10000 := by
  cases n with
  | none => simp [saneClosed] at h
  | some w =>
    simp only [saneClosed] at h
    split at h <;> simp_all

theorem saneDom_range {n : Option ℚ} {v : ℚ}
    (h : saneDom n = some v) : 0 ≤ v ∧ v ≤ 365 := by
  cases n with
  | none => simp [saneDom] at h
  | some w =>
    simp only [saneDom] at h
    split at h <;> simp_all

theorem saneActive_range {n : Option ℚ} {line : List Char} {v : ℚ}
    (h : saneActive n line = some v) : 0 ≤ v ∧ v < 50000 := by
  cases n with
  | none => simp [saneActive] at h
  | some w =>
    simp only [saneActive] at h
    split at h
    · simp at h
    · split at h <;> simp_all

theorem round1_nonneg {q : ℚ} (h : 0 ≤ q) : 0 ≤ round1 q := by
  unfold round1 jsRound
  have h1 : (0 : ℤ) ≤ ⌊q * 10 + 1/2⌋ := by
    rw [Int.le_floor]
    push_cast
    linarith
  have h2 : (0 : ℚ) ≤ (⌊q * 10 + 1/2⌋ : ℚ) := by exact_mod_cast h1
  linarith

theorem round1_le_fifty {q : ℚ} (h : q < 50) : round1 q ≤ 50 := by
  unfold round1 jsRound
  have h1 : ⌊q * 10 + 1/2⌋ < 501 := by
    rw [Int.floor_lt]
    push_cast
    linarith
  have h2 : ⌊q * 10 + 1/2⌋ ≤ 500 := by omega
  have h3 : (⌊q * 10 + 1/2⌋ : ℚ) ≤ 500 := by exact_mod_cast h2
  linarith

theorem saneMois_spec {n : Option ℚ} {v : ℚ} (h : saneMois n = some v) :
    ∃ q, n = some q ∧ 0 ≤ q ∧ q < 50 ∧ v = round1 q := by
  cases n with
  | none => simp [saneMois] at h
  | some w =>
    simp only [saneMois] at h
    split at h
    · exact ⟨w, rfl, by simp_all, by simp_all, by simp_all⟩
    · simp at h

theorem saneMois_range {n : Option ℚ} {v : ℚ}
    (h : saneMois n = some v) : 0 ≤ v ∧ v ≤ 50 := by
  obtain ⟨q, _, hq0, hq50, hv⟩ := saneMois_spec h
  exact ⟨hv ▸ round1_nonneg hq0, hv ▸ round1_le_fifty hq50⟩

theorem scanCount_some {α : Type} {pick : List Char → Option α} :
    ∀ {ls : List (List Char)} {n : Nat} {v : α},
      scanCount pick ls n = some v → ∃ ln, pick ln = some v := by
  intro ls
  induction ls with
  | nil =>
    intro n v h
    cases n <;> simp [scanCount] at h
  | cons l rest ih =>
    intro n v h
    cases n with
    | zero => simp [scanCount] at h
    | succ m =>
      simp only [scanCount] at h
      cases hp : pick l with
      | some w =>
        rw [hp] at h
        exact ⟨l, by simpa using hp.trans h⟩
      | none =>
        rw [hp] at h
        exact ih h

theorem windowScan_some {α : Type} {arr : List (List Char)} {start maxAhead : Nat}
    {pick : List Char → Option α} {v : α}
    (h : windowScan arr start maxAhead pick = some v) : ∃ ln, pick ln = some v :=
  scanCount_some h

theorem closedPick_range {ln : List Char} {v : ℚ}
    (h : closedPick ln = some v) : 0 ≤ v ∧ v < 10000 := by
  unfold closedPick at h
  split at h
  · simp at h
  · exact saneClosed_range h

theorem closedScan_range {lines : List (List Char)} {start : Nat} {v : ℚ}
    (h : closedScan lines start = some v) : 0 ≤ v ∧ v < 10000 := by
  obtain ⟨ln, hln⟩ := windowScan_some h
  exact closedPick_range hln

theorem closedOnLine_range {lines : List (List Char)} {i : Nat} {line : List Char} {v : ℚ}
    (h : closedOnLine lines i line = some v) : 0 ≤ v ∧ v < 10000 := by
  unfold closedOnLine at h
  split at h
  · exact closedScan_range h
  · split at h
    · next heq => exact Option.some_inj.mp h ▸ saneClosed_range heq
    · exact closedScan_range h

theorem activePick_range {closed : Option ℚ} {ln : List Char} {v : ℚ}
    (h : activePick closed ln = some v) : 0 ≤ v ∧ v < 50000 := by
  unfold activePick at h
  split at h
  · simp at h
  · split at h
    · next heq =>
      split at h
      · simp at h
      · exact Option.some_inj.mp h ▸ saneActive_range heq
    · simp at h

theorem activeOnLine_range {lines : List (List Char)} {i : Nat} {line : List Char}
    {closed : Option ℚ} {v : ℚ}
    (h : activeOnLine lines i line closed = some v) : 0 ≤ v ∧ v < 50000 := by
  unfold activeOnLine at h
  split at h
  · obtain ⟨ln, hln⟩ := windowScan_some h
    exact activePick_range hln
  · split at h
    · next heq =>
      split at h
      · obtain ⟨ln, hln⟩ := windowScan_some h
        exact activePick_range hln
      · exact Option.some_inj.mp h ▸ saneActive_range heq
    · obtain ⟨ln, hln⟩ := windowScan_some h
      exact activePick_range hln

/-! ## The range invariant of `part_003`'s parser -/

/-- Every value `part_003`'s parser records passed its range validator:
prices in `[20000, 2000000]`, closed sales in `[0, 10000)`, days on
market in `[0, 365]`, months of supply in `[0, 50]` (after rounding),
active listings in `[0, 50000)`. -/
def InvS (out : Stats) : Prop :=
  (∀ v, out.medianPrice = some v → 20000 ≤ v ∧ v ≤ 2000000) ∧
  (∀ v, out.closed = some v → 0 ≤ v ∧ v < 10000) ∧
  (∀ v, out.dom = some v → 0 ≤ v ∧ v ≤ 365) ∧
  (∀ v, out.monthsSupply = some v → 0 ≤ v ∧ v ≤ 50) ∧
  (∀ v, out.activeListings = some v → 0 ≤ v ∧ v < 50000)

theorem restAfterClosed_inv {lines : List (List Char)} {i : Nat} {line : List Char}
    {out : Stats} (h : InvS out) : InvS (restAfterClosed lines i line out) := by
  obtain ⟨h₁, h₂, h₃, h₄, h₅⟩ := h
  unfold restAfterClosed
  split
  · split
    · next heq =>
      exact ⟨h₁, h₂, fun v hv => by simp at hv; exact hv ▸ saneDom_range heq, h₄, h₅⟩
    · exact ⟨h₁, h₂, h₃, h₄, h₅⟩
  · split
    · split
      · next heq =>
        exact ⟨h₁, h₂, h₃, fun v hv => by simp at hv; exact hv ▸ saneMois_range heq, h₅⟩
      · exact ⟨h₁, h₂, h₃, h₄, h₅⟩
    · split
      · split
        · next heq =>
          exact ⟨h₁, h₂, h₃, h₄, fun v hv => by simp at hv; exact hv ▸ activeOnLine_range heq⟩
        · exact ⟨h₁, h₂, h₃, h₄, h₅⟩
      · exact ⟨h₁, h₂, h₃, h₄, h₅⟩

theorem step3_inv {lines : List (List Char)} {i : Nat} {line : List Char}
    {out : Stats} (h : InvS out) : InvS (step3 lines i line out) := by
  obtain ⟨h₁, h₂, h₃, h₄, h₅⟩ := h
  unfold step3
  split
  · split
    · next heq =>
      exact ⟨fun v hv => by simp at hv; exact hv ▸ sanePrice_range heq, h₂, h₃, h₄, h₅⟩
    · exact ⟨h₁, h₂, h₃, h₄, h₅⟩
  · split
    · split
      · next heq =>
        exact ⟨h₁, fun v hv => by simp at hv; exact hv ▸ closedOnLine_range heq, h₃, h₄, h₅⟩
      · exact restAfterClosed_inv ⟨h₁, h₂, h₃, h₄, h₅⟩
    · exact restAfterClosed_inv ⟨h₁, h₂, h₃, h₄, h₅⟩

theorem loop3_inv {lines : List (List Char)} :
    ∀ (rem : List (List Char)) (i : Nat) (out : Stats),
      InvS out → InvS (loop3 lines rem i out) := by
  intro rem
  induction rem with
  | nil => intro i out h; exact h
  | cons l rest ih => intro i out h; exact ih (i + 1) _ (step3_inv h)

/-! ## Field preservation: a metric's field changes only when its label
test fires on the current line -/

theorem restAfterClosed_medianPrice {lines : List (List Char)} {i : Nat}
    {line : List Char} {out : Stats} :
    (restAfterClosed lines i line out).medianPrice = out.medianPrice := by
  unfold restAfterClosed
  split
  · split <;> rfl
  · split
    · split <;> rfl
    · split
      · split <;> rfl
      · rfl

theorem restAfterClosed_closed {lines : List (List Char)} {i : Nat}
    {line : List Char} {out : Stats} :
    (restAfterClosed lines i line out).closed = out.closed := by
  unfold restAfterClosed
  split
  · split <;> rfl
  · split
    · split <;> rfl
    · split
      · split <;> rfl
      · rfl

theorem restAfterClosed_dom {lines : List (List Char)} {i : Nat}
    {line : List Char} {out : Stats} (h : reDomTest line = false) :
    (restAfterClosed lines i line out).dom = out.dom := by
  unfold restAfterClosed
  simp only [h, Bool.and_false, if_neg Bool.false_ne_true]
  split
  · split <;> rfl
  · split
    · split <;> rfl
    · rfl

theorem restAfterClosed_monthsSupply {lines : List (List Char)} {i : Nat}
    {line : List Char} {out : Stats} (h : reMonthsTest line = false) :
    (restAfterClosed lines i line out).monthsSupply = out.monthsSupply := by
  unfold restAfterClosed
  split
  · split <;> rfl
  · simp only [h, Bool.and_false, if_neg Bool.false_ne_true]
    split
    · split <;> rfl
    · rfl

theorem restAfterClosed_activeListings {lines : List (List Char)} {i : Nat}
    {line : List Char} {out : Stats} (h : reActiveLabelTest line = false) :
    (restAfterClosed lines i line out).activeListings = out.activeListings := by
  unfold restAfterClosed
  split
  · split <;> rfl
  · split
    · split <;> rfl
    · simp only [h, Bool.and_false, if_neg Bool.false_ne_true]

theorem step3_medianPrice {lines : List (List Char)} {i : Nat}
    {line : List Char} {out : Stats} (h : reMedianPriceTest line = false) :
    (step3 lines i line out).medianPrice = out.medianPrice := by
  unfold step3
  simp only [h, Bool.and_false, if_neg Bool.false_ne_true]
  split
  · split
    · rfl
    · exact restAfterClosed_medianPrice
  · exact restAfterClosed_medianPrice

theorem step3_closed {lines : List (List Char)} {i : Nat}
    {line : List Char} {out : Stats} (h : reClosedAnyTest line = false) :
    (step3 lines i line out).closed = out.closed := by
  unfold step3
  split
  · split <;> rfl
  · simp only [h, Bool.and_false, if_neg Bool.false_ne_true]
    exact restAfterClosed_closed

theorem step3_dom {lines : List (List Char)} {i : Nat}
    {line : List Char} {out : Stats} (h : reDomTest line = false) :
    (step3 lines i line out).dom = out.dom := by
  unfold step3
  split
  · split <;> rfl
  · split
    · split
      · rfl
      · exact restAfterClosed_dom h
    · exact restAfterClosed_dom h

theorem step3_monthsSupply {lines : List (List Char)} {i : Nat}
    {line : List Char} {out : Stats} (h : reMonthsTest line = false) :
    (step3 lines i line out).monthsSupply = out.monthsSupply := by
  unfold step3
  split
  · split <;> rfl
  · split
    · split
      · rfl
      · exact restAfterClosed_monthsSupply h
    · exact restAfterClosed_monthsSupply h

theorem step3_activeListings {lines : List (List Char)} {i : Nat}
    {line : List Char} {out : Stats} (h : reActiveLabelTest line = false) :
    (step3 lines i line out).activeListings = out.activeListings := by
  unfold step3
  split
  · split <;> rfl
  · split
    · split
      · rfl
      · exact restAfterClosed_activeListings h
    · exact restAfterClosed_activeListings h

theorem loop3_medianPrice {lines : List (List Char)} :
    ∀ (rem : List (List Char)) (i : Nat) (out : Stats),
      (∀ l ∈ rem, reMedianPriceTest l = false) →
      (loop3 lines rem i out).medianPrice = out.medianPrice := by
  intro rem
  induction rem with
  | nil => intro i out _; rfl
  | cons l rest ih =>
    intro i out h
    have h2 := ih (i + 1) (step3 lines i l out)
      (fun l' hl' => h l' (List.mem_cons_of_mem _ hl'))
    rw [loop3, h2, step3_medianPrice (h l (List.mem_cons_self _ _))]

theorem loop3_closed {lines : List (List Char)} :
    ∀ (rem : List (List Char)) (i : Nat) (out : Stats),
      (∀ l ∈ rem, reClosedAnyTest l = false) →
      (loop3 lines rem i out).closed = out.closed := by
  intro rem
  induction rem with
  | nil => intro i out _; rfl
  | cons l rest ih =>
    intro i out h
    have h2 := ih (i + 1) (step3 lines i l out)
      (fun l' hl' => h l' (List.mem_cons_of_mem _ hl'))
    rw [loop3, h2, step3_closed (h l (List.mem_cons_self _ _))]

theorem loop3_dom {lines : List (List Char)} :
    ∀ (rem : List (List Char)) (i : Nat) (out : Stats),
      (∀ l ∈ rem, reDomTest l = false) →
      (loop3 lines rem i out).dom = out.dom := by
  intro rem
  induction rem with
  | nil => intro i out _; rfl
  | cons l rest ih =>
    intro i out h
    have h2 := ih (i + 1) (step3 lines i l out)
      (fun l' hl' => h l' (List.mem_cons_of_mem _ hl'))
    rw [loop3, h2, step3_dom (h l (List.mem_cons_self _ _))]

theorem loop3_monthsSupply {lines : List (List Char)} :
    ∀ (rem : List (List Char)) (i : Nat) (out : Stats),
      (∀ l ∈ rem, reMonthsTest l = false) →
      (loop3 lines rem i out).monthsSupply = out.monthsSupply := by
  intro rem
  induction rem with
  | nil => intro i out _; rfl
  | cons l rest ih =>
    intro i out h
    have h2 := ih (i + 1) (step3 lines i l out)
      (fun l' hl' => h l' (List.mem_cons_of_mem _ hl'))
    rw [loop3, h2, step3_monthsSupply (h l (List.mem_cons_self _ _))]

theorem loop3_activeListings {lines : List (List Char)} :
    ∀ (rem : List (List Char)) (i : Nat) (out : Stats),
      (∀ l ∈ rem, reActiveLabelTest l = false) →
      (loop3 lines rem i out).activeListings = out.activeListings := by
  intro rem
  induction rem with
  | nil => intro i out _; rfl
  | cons l rest ih =>
    intro i out h
    have h2 := ih (i + 1) (step3 lines i l out)
      (fun l' hl' => h l' (List.mem_cons_of_mem _ hl'))
    rw [loop3, h2, step3_activeListings (h l (List.mem_cons_self _ _))]

/-! Field preservation for the `waukesha-live.js` parser. -/

theorem stepLive_medianPrice {lines : List (List Char)} {i : Nat}
    {line : List Char} {out : Stats} (h : liveMedianPriceTest line = false) :
    (stepLive lines i line out).medianPrice = out.medianPrice := by
  unfold stepLive
  simp only [h, if_neg Bool.false_ne_true]
  split
  · split <;> rfl
  · split
    · split <;> rfl
    · split
      · split <;> rfl
      · split
        · split <;> rfl
        · rfl

theorem stepLive_closed {lines : List (List Char)} {i : Nat}
    {line : List Char} {out : Stats} (h : liveClosedTest line = false) :
    (stepLive lines i line out).closed = out.closed := by
  unfold stepLive
  split
  · split <;> rfl
  · simp only [h, if_neg Bool.false_ne_true]
    split
    · split <;> rfl
    · split
      · split <;> rfl
      · split
        · split <;> rfl
        · rfl

theorem stepLive_dom {lines : List (List Char)} {i : Nat}
    {line : List Char} {out : Stats} (h : liveDomTest line = false) :
    (stepLive lines i line out).dom = out.dom := by
  unfold stepLive
  split
  · split <;> rfl
  · split
    · split <;> rfl
    · simp only [h, if_neg Bool.false_ne_true]
      split
      · split <;> rfl
      · split
        · split <;> rfl
        · rfl

theorem stepLive_monthsSupply {lines : List (List Char)} {i : Nat}
    {line : List Char} {out : Stats} (h : liveMonthsTest line = false) :
    (stepLive lines i line out).monthsSupply = out.monthsSupply := by
  unfold stepLive
  split
  · split <;> rfl
  · split
    · split <;> rfl
    · split
      · split <;> rfl
      · simp only [h, if_neg Bool.false_ne_true]
        split
        · split <;> rfl
        · rfl

theorem stepLive_activeListings {lines : List (List Char)} {i : Nat}
    {line : List Char} {out : Stats} (h : liveActiveTest line = false) :
    (stepLive lines i line out).activeListings = out.activeListings := by
  unfold stepLive
  split
  · split <;> rfl
  · split
    · split <;> rfl
    · split
      · split <;> rfl
      · split
        · split <;> rfl
        · simp only [h, if_neg Bool.false_ne_true]

theorem loopLive_medianPrice {lines : List (List Char)} :
    ∀ (rem : List (List Char)) (i : Nat) (out : Stats),
      (∀ l ∈ rem, liveMedianPriceTest l = false) →
      (loopLive lines rem i out).medianPrice = out.medianPrice := by
  intro rem
  induction rem with
  | nil => intro i out _; rfl
  | cons l rest ih =>
    intro i out h
    have h2 := ih (i + 1) (stepLive lines i l out)
      (fun l' hl' => h l' (List.mem_cons_of_mem _ hl'))
    rw [loopLive, h2, stepLive_medianPrice (h l (List.mem_cons_self _ _))]

theorem loopLive_closed {lines : List (List Char)} :
    ∀ (rem : List (List Char)) (i : Nat) (out : Stats),
      (∀ l ∈ rem, liveClosedTest l = false) →
      (loopLive lines rem i out).closed = out.closed := by
  intro rem
  induction rem with
  | nil => intro i out _; rfl
  | cons l rest ih =>
    intro i out h
    have h2 := ih (i + 1) (stepLive lines i l out)
      (fun l' hl' => h l' (List.mem_cons_of_mem _ hl'))
    rw [loopLive, h2, stepLive_closed (h l (List.mem_cons_self _ _))]

theorem loopLive_dom {lines : List (List Char)} :
    ∀ (rem : List (List Char)) (i : Nat) (out : Stats),
      (∀ l ∈ rem, liveDomTest l = false) →
      (loopLive lines rem i out).dom = out.dom := by
  intro rem
  induction rem with
  | nil => intro i out _; rfl
  | cons l rest ih =>
    intro i out h
    have h2 := ih (i + 1) (stepLive lines i l out)
      (fun l' hl' => h l' (List.mem_cons_of_mem _ hl'))
    rw [loopLive, h2, stepLive_dom (h l (List.mem_cons_self _ _))]

theorem loopLive_monthsSupply {lines : List (List Char)} :
    ∀ (rem : List (List Char)) (i : Nat) (out : Stats),
      (∀ l ∈ rem, liveMonthsTest l = false) →
      (loopLive lines rem i out).monthsSupply = out.monthsSupply := by
  intro rem
  induction rem with
  | nil => intro i out _; rfl
  | cons l rest ih =>
    intro i out h
    have h2 := ih (i + 1) (stepLive lines i l out)
      (fun l' hl' => h l' (List.mem_cons_of_mem _ hl'))
    rw [loopLive, h2, stepLive_monthsSupply (h l (List.mem_cons_self _ _))]

theorem loopLive_activeListings {lines : List (List Char)} :
    ∀ (rem : List (List Char)) (i : Nat) (out : Stats),
      (∀ l ∈ rem, liveActiveTest l = false) →
      (loopLive lines rem i out).activeListings = out.activeListings := by
  intro rem
  induction rem with
  | nil => intro i out _; rfl
  | cons l rest ih =>
    intro i out h
    have h2 := ih (i + 1) (stepLive lines i l out)
      (fun l' hl' => h l' (List.mem_cons_of_mem _ hl'))
    rw [loopLive, h2, stepLive_activeListings (h l (List.mem_cons_self _ _))]

/-! ## Bridge lemmas -/

theorem toLines_empty : toLines "" = [] := by decide

theorem parseRprStats_eq_loop (txt : String) :
    parseRprStats txt = loop3 (toLines txt) (toLines txt) 0 emptyStats := by
  unfold parseRprStats
  split
  · next h => rw [h, toLines_empty]; rfl
  · rfl

theorem parseRprStatsLive_eq_loop (txt : String) :
    parseRprStatsLive txt = loopLive (toLines txt) (toLines txt) 0 emptyStats := by
  unfold parseRprStatsLive
  split
  · next h => rw [h, toLines_empty]; rfl
  · rfl

theorem round1_148 : round1 (148/100 : ℚ) = 15/10 := by
  unfold round1 jsRound
  norm_num [Int.floor_eq_iff]

theorem round1_144 : round1 (144/100 : ℚ) = 14/10 := by
  unfold round1 jsRound
  norm_num [Int.floor_eq_iff]

theorem round1_fixed_tenths (n : ℤ) : round1 ((n : ℚ)/10) = (n : ℚ)/10 := by
  unfold round1 jsRound
  have h : (n : ℚ)/10 * 10 + 1/2 = (n : ℚ) + 1/2 := by ring
  rw [h]
  have h2 : ⌊(n : ℚ) + 1/2⌋ = n := by
    rw [Int.floor_eq_iff]
    constructor
    · linarith
    · linarith
  rw [h2]

theorem saneMois_tenths {n : ℤ} (h0 : 0 ≤ (n : ℚ)/10) (h50 : (n : ℚ)/10 < 50) :
    saneMois (some ((n : ℚ)/10)) = some ((n : ℚ)/10) := by
  simp only [saneMois, if_pos (And.intro h0 h50), round1_fixed_tenths]

/-! ## Claim theorems -/

/-- Counterexample for C2 as stated: `sane.active` does *not* return
every in-range candidate — it returns absent for the in-range value 402
whenever the candidate's line contains a dollar sign or the word
"price", so the validator family does not uniformly "return the value
if it lies inside the metric's plausible range". -/
theorem saneActive_rejects_in_range_on_price_line :
    saneActive (some 402) ("Median Price $402".toList) = none ∧
    (0 ≤ (402 : ℚ) ∧ (402 : ℚ) < 50000) := by
  exact ⟨by decide, by decide⟩

/-- Claim C2 (amended): the range validators are total functions (never
throw) and accept a candidate only when it is inside the
metric-specific plausible range: a median price is kept iff it is in
`[20000, 2000000]` — so `2500000` yields absent — a months-of-supply
candidate is accepted only when it is between 0 and 50 (returned
rounded to one decimal, per §4.4), closed sales and days-on-market are
returned unchanged iff in `[0, 10000)` resp. `[0, 365]`, and
`sane.active` returns the value iff it is in `[0, 50000)` *and* the
line carries no `$`/"price" marker — on such price-looking lines it
returns absent even for in-range candidates. -/
theorem sane_validator_ranges :
    ∀ (q : ℚ) (line : List Char),
      (sanePrice (some q) line = some q ↔ (20000 ≤ q ∧ q ≤ 2000000)) ∧
      (¬(20000 ≤ q ∧ q ≤ 2000000) → sanePrice (some q) line = none) ∧
      (sanePrice (some 2500000) line = none) ∧
      (∀ v, saneMois (some q) = some v → 0 ≤ q ∧ q ≤ 50) ∧
      ((0 ≤ q ∧ q < 50) → (saneMois (some q)).isSome = true) ∧
      (saneClosed (some q) = some q ↔ (0 ≤ q ∧ q < 10000)) ∧
      (saneDom (some q) = some q ↔ (0 ≤ q ∧ q ≤ 365)) ∧
      (dollarOrPrice line = false →
        (saneActive (some q) line = some q ↔ (0 ≤ q ∧ q < 50000))) ∧
      (dollarOrPrice line = true → saneActive (some q) line = none) := by
  intro q line
  refine ⟨?_, ?_, ?_, ?_, ?_, ?_, ?_, ?_, ?_⟩
  · constructor
    · intro h
      have := sanePrice_range h
      exact this
    · intro h
      simp only [sanePrice]
      split <;> simp [h]
  · intro h
    simp only [sanePrice]
    split <;> simp [h]
  · simp only [sanePrice]
    split <;> · rw [if_neg (by norm_num)]
  · intro v h
    obtain ⟨w, hw, h0, h50, _⟩ := saneMois_spec h
    injection hw with hqw
    subst hqw
    exact ⟨h0, le_of_lt h50⟩
  · intro h
    simp only [saneMois, if_pos h, Option.isSome_some]
  · constructor
    · intro h
      exact saneClosed_range h
    · intro h
      simp only [saneClosed, if_pos h]
  · constructor
    · intro h
      exact saneDom_range h
    · intro h
      simp only [saneDom, if_pos h]
  · intro hline
    constructor
    · intro h
      exact saneActive_range h
    · intro hr
      simp only [saneActive, hline, Bool.false_eq_true, if_false, if_pos hr]
  · intro hline
    simp only [saneActive, hline, if_true]

/-- Witness for C2 at concrete inputs, exercising all hypotheses:
price rejection, months-of-supply acceptance, and both sides of the
`sane.active` line test. -/
theorem sane_validator_ranges_witness :
    sanePrice (some 2500000) [] = none ∧ (saneMois (some 3)).isSome = true ∧
    saneActive (some 402) ("402 active homes".toList) = some 402 ∧
    saneActive (some 402) ("Price $402".toList) = none :=
  ⟨(sane_validator_ranges 2500000 []).2.2.1,
   (sane_validator_ranges 3 []).2.2.2.2.1 (by norm_num),
   ((sane_validator_ranges 402 ("402 active homes".toList)).2.2.2.2.2.2.2.1
     (by decide)).mpr (by norm_num),
   (sane_validator_ranges 402 ("Price $402".toList)).2.2.2.2.2.2.2.2 (by decide)⟩

/-- Claim C5: every months-of-supply value accepted by the validator is
returned rounded to one decimal place, and on the (nonnegative)
validator-accepted domain the code's `round1` (JS `Math.round(n*10)/10`)
agrees with the spec's round-half-away-from-zero at one decimal; in
particular `round1(1.48) = 1.5` and `round1(1.44) = 1.4`. -/
theorem round1_half_away_from_zero :
    (∀ q v : ℚ, saneMois (some q) = some v → v = rhafz1 q) ∧
    round1 (148/100 : ℚ) = 15/10 ∧ round1 (144/100 : ℚ) = 14/10 := by
  refine ⟨?_, round1_148, round1_144⟩
  intro q v h
  obtain ⟨w, hw, h0, _, hv⟩ := saneMois_spec h
  injection hw with hqw
  subst hqw
  rw [hv]
  unfold round1 jsRound rhafz1
  rw [if_pos h0, mul_comm]

/-- Witness for C5 at `q = 1.48`. -/
theorem round1_half_away_from_zero_witness : (15/10 : ℚ) = rhafz1 (148/100) :=
  round1_half_away_from_zero.1 (148/100) (15/10)
    (by simp only [saneMois, if_pos (by norm_num : (0:ℚ) ≤ 148/100 ∧ (148/100:ℚ) < 50), round1_148])

/-- Claim C7: the assembler is pure and deterministic — two calls on the
same text give the same record, and the result depends only on the
normalized line list of the input (no hidden mutable state in the
embedding of either parser variant). -/
theorem parseRprStats_deterministic :
    (∀ txt : String, parseRprStats txt = parseRprStats txt) ∧
    (∀ t₁ t₂ : String, toLines t₁ = toLines t₂ → parseRprStats t₁ = parseRprStats t₂) ∧
    (∀ t₁ t₂ : String, toLines t₁ = toLines t₂ → parseRprStatsLive t₁ = parseRprStatsLive t₂) := by
  refine ⟨fun _ => rfl, ?_, ?_⟩
  · intro t₁ t₂ h
    rw [parseRprStats_eq_loop, parseRprStats_eq_loop, h]
  · intro t₁ t₂ h
    rw [parseRprStatsLive_eq_loop, parseRprStatsLive_eq_loop, h]

/-- Witness for C7: two textually different inputs with the same
normalized lines parse identically. -/
theorem parseRprStats_deterministic_witness :
    parseRprStats "Closed Sales 3" = parseRprStats "Closed Sales 3\n" :=
  parseRprStats_deterministic.2.1 "Closed Sales 3" "Closed Sales 3\n" (by decide)

/-- Claim C9: for every input (including the empty document) the live
parser returns a record with exactly the five expected keys, each bound
to `null` or a (finite, rational-modelled) number — and the same holds
for the `part_003` parser; `pruneTo5` leaves such a record unchanged. -/
theorem parseRprStats_record_shape :
    ∀ txt : String,
      ((statsPairs (parseRprStatsLive txt)).map Prod.fst =
        ["medianPrice", "closed", "dom", "monthsSupply", "activeListings"]) ∧
      (∀ p ∈ statsPairs (parseRprStatsLive txt), p.2 = none ∨ ∃ q : ℚ, p.2 = some q) ∧
      parseRprStatsLive "" = emptyStats ∧
      pruneTo5 (parseRprStatsLive txt) = parseRprStatsLive txt ∧
      (∀ p ∈ statsPairs (parseRprStats txt), p.2 = none ∨ ∃ q : ℚ, p.2 = some q) := by
  intro txt
  have opt : ∀ o : Option ℚ, o = none ∨ ∃ q : ℚ, o = some q := by
    intro o
    cases o with
    | none => exact Or.inl rfl
    | some q => exact Or.inr ⟨q, rfl⟩
  refine ⟨rfl, ?_, rfl, rfl, ?_⟩
  · intro p hp
    simp only [statsPairs, List.mem_cons, List.not_mem_nil, or_false] at hp
    rcases hp with h | h | h | h | h <;> exact h ▸ opt _
  · intro p hp
    simp only [statsPairs, List.mem_cons, List.not_mem_nil, or_false] at hp
    rcases hp with h | h | h | h | h <;> exact h ▸ opt _

/-- Witness for C9 at the empty document. -/
theorem parseRprStats_record_shape_witness :
    ("medianPrice", (none : Option ℚ)) = ("medianPrice", (none : Option ℚ)) ∨
    ∃ q : ℚ, (("medianPrice", (none : Option ℚ))).2 = some q := by
  have h := (parseRprStats_record_shape "").2.1 ("medianPrice", none) (by decide)
  rcases h with h | h
  · exact Or.inl rfl
  · exact Or.inr h

/-- Claim C10: `normalizeRateApr` returns `rate ≤ apr` whenever both are
present (swapping when the parsed APR is below the parsed rate), copies
a lone APR into the rate slot, and returns both `undefined` when both
inputs are null. -/
theorem normalizeRateApr_spec :
    ∀ r a : ℚ,
      (∀ x y, normalizeRateApr (some r) (some a) = (some x, some y) → x ≤ y) ∧
      normalizeRateApr none (some a) = (some a, some a) ∧
      normalizeRateApr none none = ((none : Option ℚ), (none : Option ℚ)) ∧
      (a < r → normalizeRateApr (some r) (some a) = (some a, some r)) ∧
      (¬a < r → normalizeRateApr (some r) (some a) = (some r, some a)) := by
  intro r a
  refine ⟨?_, rfl, rfl, ?_, ?_⟩
  · intro x y h
    simp only [normalizeRateApr] at h
    split at h
    · next hlt =>
      have h1 : some a = some x := congrArg Prod.fst h
      have h2 : some r = some y := congrArg Prod.snd h
      injection h1 with e1
      injection h2 with e2
      subst e1
      subst e2
      exact le_of_lt hlt
    · next hge =>
      have h1 : some r = some x := congrArg Prod.fst h
      have h2 : some a = some y := congrArg Prod.snd h
      injection h1 with e1
      injection h2 with e2
      subst e1
      subst e2
      exact not_lt.mp hge
  · intro h
    simp only [normalizeRateApr, if_pos h]
  · intro h
    simp only [normalizeRateApr, if_neg h]

/-- Witness for C10: a page listing APR 6.0 and rate 7.0 is swapped. -/
theorem normalizeRateApr_spec_witness :
    normalizeRateApr (some 7) (some 6) = (some 6, some 7) ∧ (6 : ℚ) ≤ 7 :=
  ⟨(normalizeRateApr_spec 7 6).2.2.2.1 (by norm_num),
   (normalizeRateApr_spec 7 6).1 6 7 ((normalizeRateApr_spec 7 6).2.2.2.1 (by norm_num))⟩

/-! ## C4, C3, C1, C6, C8 -/

theorem invS_empty : InvS emptyStats := by
  refine ⟨?_, ?_, ?_, ?_, ?_⟩ <;> · intro v hv; simp [emptyStats] at hv

/-- Claim C4 (amended): in `part_003`'s assembler a metric whose label
never matches is returned as absent (`none`, which is distinct from
`some 0`), and every recorded value passed its range validator — so a
metric whose candidates all fail the sanity check is also absent; the
`waukesha-live.js` assembler guarantees only the label-absence half,
since it applies no range validation.  Both embedded assemblers are
total functions, so neither call can throw. -/
theorem parseRprStats_absent_metrics :
    ∀ txt : String,
      ((∀ l ∈ toLines txt, reMedianPriceTest l = false) →
        (parseRprStats txt).medianPrice = none) ∧
      ((∀ l ∈ toLines txt, reClosedAnyTest l = false) →
        (parseRprStats txt).closed = none) ∧
      ((∀ l ∈ toLines txt, reDomTest l = false) →
        (parseRprStats txt).dom = none) ∧
      ((∀ l ∈ toLines txt, reMonthsTest l = false) →
        (parseRprStats txt).monthsSupply = none) ∧
      ((∀ l ∈ toLines txt, reActiveLabelTest l = false) →
        (parseRprStats txt).activeListings = none) ∧
      InvS (parseRprStats txt) ∧
      ((∀ l ∈ toLines txt, liveMedianPriceTest l = false) →
        (parseRprStatsLive txt).medianPrice = none) ∧
      ((∀ l ∈ toLines txt, liveClosedTest l = false) →
        (parseRprStatsLive txt).closed = none) ∧
      ((∀ l ∈ toLines txt, liveDomTest l = false) →
        (parseRprStatsLive txt).dom = none) ∧
      ((∀ l ∈ toLines txt, liveMonthsTest l = false) →
        (parseRprStatsLive txt).monthsSupply = none) ∧
      ((∀ l ∈ toLines txt, liveActiveTest l = false) →
        (parseRprStatsLive txt).activeListings = none) := by
  intro txt
  rw [parseRprStats_eq_loop, parseRprStatsLive_eq_loop]
  exact ⟨fun h => loop3_medianPrice _ _ _ h, fun h => loop3_closed _ _ _ h,
    fun h => loop3_dom _ _ _ h, fun h => loop3_monthsSupply _ _ _ h,
    fun h => loop3_activeListings _ _ _ h,
    loop3_inv _ _ _ invS_empty,
    fun h => loopLive_medianPrice _ _ _ h, fun h => loopLive_closed _ _ _ h,
    fun h => loopLive_dom _ _ _ h, fun h => loopLive_monthsSupply _ _ _ h,
    fun h => loopLive_activeListings _ _ _ h⟩

/-- Witness for C4: a document with no metric labels yields an absent
median price. -/
theorem parseRprStats_absent_metrics_witness :
    (parseRprStats "hello world").medianPrice = none :=
  (parseRprStats_absent_metrics "hello world").1 (by decide)

/-- Counterexample for C4 as stated: `waukesha-live.js`'s assembler
records a median price of 2,500,000 even though that candidate fails the
sanity range check, instead of recording the metric as absent. -/
theorem parseRprStatsLive_keeps_invalid_price :
    (parseRprStatsLive "Median Price $2,500,000").medianPrice = some 2500000 ∧
    sanePrice (some 2500000) ("Median Price $2,500,000".toList) = none := by
  exact ⟨by decide, by decide⟩

/-- Claim C3 (amended): `part_003`'s `pickNumberAround` skips exactly
the window segments matching `%` or `MoM` (not month names or year
tokens), and with that filter Scenario C holds:
`"Closed Sales\n5.2% MoM\n312"` yields `closed = 312`. -/
theorem pickNumberAround_skips_pct_mom :
    (∀ (f : List Char → Option ℚ) (n : List Char) (ls : List (List Char)) (k : Nat),
        pctOrMoM n = true →
        scanCount (fun ln => if pctOrMoM ln then none else f ln) (n :: ls) (k + 1) =
        scanCount (fun ln => if pctOrMoM ln then none else f ln) ls k) ∧
    (parseRprStats "Closed Sales\n5.2% MoM\n312").closed = some 312 := by
  constructor
  · intro f n ls k h
    simp [scanCount, h]
  · decide

/-- Witness for C3's amended skip property at a concrete noise line. -/
theorem pickNumberAround_skips_pct_mom_witness :
    scanCount (fun ln => if pctOrMoM ln then none else firstInt ln)
      ["5.2% MoM".toList, "312".toList] 2 =
    scanCount (fun ln => if pctOrMoM ln then none else firstInt ln)
      ["312".toList] 1 :=
  pickNumberAround_skips_pct_mom.1 firstInt "5.2% MoM".toList ["312".toList] 1 (by decide)

/-- Counterexample for C3 as stated: a noise segment containing a month
name and a four-digit year is *not* skipped — `pickNumberAround` takes
`202` out of `"January 2024"` instead of the plain `312` that follows. -/
theorem monthYear_noise_not_skipped :
    monthWord "January 2024".toList = true ∧
    yearToken "January 2024".toList = true ∧
    (parseRprStats "Closed Sales\nJanuary 2024\n312").closed = some 202 := by
  exact ⟨by decide, by decide, by decide⟩

/-- Counterexample for C1 as stated: the `waukesha.js` handler answers
an upstream non-OK response with 502 and a rejected (timed-out) fetch
with 500 — both 5xx statuses — rather than degrading to a 200 fallback
response. -/
theorem waukeshaHandler_5xx_on_upstream_failure :
    is5xx (waukeshaHandlerStatus (Upstream.respNotOk 503) (fun _ => false)) = true ∧
    is5xx (waukeshaHandlerStatus (Upstream.fetchRejects "timeout") (fun _ => false)) = true ∧
    waukeshaHandlerStatus (Upstream.respNotOk 503) (fun _ => false) = 502 ∧
    waukeshaHandlerStatus (Upstream.fetchRejects "timeout") (fun _ => false) = 500 := by
  exact ⟨by decide, by decide, rfl, rfl⟩

/-- Claim C1 (amended): the `waukesha-live.js` handler degrades every
fetch/parse failure to a 200 response whose `months` entry is complete
(all five metric keys on both sub-records, `null`-valued from
`emptyStats`) with the `error` field set, and `part_001`'s variant
degrades to a 200 response carrying the hard-coded fallback sample with
`error: "partial"`; the `waukesha.js` handler is the variant that
violates the never-5xx guarantee. -/
theorem liveHandler_degrades_to_200 :
    ∀ (e : String) (cf : Except String String) (key tk : String),
      ((liveHandler (Except.error e) cf key tk).status = 200 ∧
       is5xx (liveHandler (Except.error e) cf key tk).status = false ∧
       (liveHandler (Except.error e) cf key tk).error = some e ∧
       ∀ kv ∈ (liveHandler (Except.error e) cf key tk).months,
         (statsPairs kv.2.sf).map Prod.fst =
           ["medianPrice", "closed", "dom", "monthsSupply", "activeListings"] ∧
         (statsPairs kv.2.condo).map Prod.fst =
           ["medianPrice", "closed", "dom", "monthsSupply", "activeListings"]) ∧
      (fallbackCatchResponse.status = 200 ∧
       is5xx fallbackCatchResponse.status = false ∧
       fallbackCatchResponse.error = some "partial" ∧
       fallbackCatchResponse.months = fallbackMonths) := by
  intro e cf key tk
  refine ⟨⟨rfl, rfl, rfl, ?_⟩, rfl, rfl, rfl, rfl⟩
  intro kv hkv
  simp only [liveHandler, List.mem_singleton] at hkv
  subst hkv
  exact ⟨rfl, rfl⟩

/-- Witness for C1's amended claim at a concrete failed request. -/
theorem liveHandler_degrades_to_200_witness :
    (statsPairs emptyStats).map Prod.fst =
      ["medianPrice", "closed", "dom", "monthsSupply", "activeListings"] := by
  have h := (liveHandler_degrades_to_200 "fetch timeout" (Except.error "fetch timeout")
      "2025-10" "2025-10").1.2.2.2
    ("2025-10", ⟨emptyStats, emptyStats, "https://www.narrpr.com/", "https://www.narrpr.com/"⟩)
    (by simp [liveHandler])
  exact h.1

theorem foldl_max_init_le : ∀ (xs : List ℤ) (a : ℤ), a ≤ xs.foldl max a := by
  intro xs
  induction xs with
  | nil => intro a; exact le_refl a
  | cons y ys ih => intro a; exact le_trans (le_max_left a y) (ih (max a y))

theorem mem_le_foldl_max : ∀ (xs : List ℤ) (a x : ℤ), x ∈ xs → x ≤ xs.foldl max a := by
  intro xs
  induction xs with
  | nil =>
    intro a x hx
    simp at hx
  | cons y ys ih =>
    intro a x hx
    rcases List.mem_cons.mp hx with h | h
    · subst h
      exact le_trans (le_max_right a x) (foldl_max_init_le ys (max a x))
    · exact ih (max a y) x h

theorem le_maxMillis {l : List ℤ} : ∀ x ∈ l, x ≤ maxMillis l := by
  intro x hx
  cases l with
  | nil => simp at hx
  | cons y ys =>
    unfold maxMillis
    rcases List.mem_cons.mp hx with h | h
    · subst h
      exact foldl_max_init_le ys x
    · exact mem_le_foldl_max ys y x h

/-- Claim C6: `updatedAt` is determined in priority order — the newest
`Last-Modified` across the source documents when any was observed, else
a valid `YYYY-MM-DD` value of the `WAU_UPDATED_AT` environment override,
else the first day of the detected month label. -/
theorem updatedAt_priority :
    ∀ (lm : List ℤ) (env : Option String) (yy mm : ℤ),
      (lm ≠ [] →
        computeUpdatedAt lm env yy mm = UpdatedAtSource.fromLastModified (maxMillis lm)) ∧
      (∀ x ∈ lm, x ≤ maxMillis lm) ∧
      (∀ s, lm = [] → env = some s → s ≠ "" → isYmdString s = true →
        computeUpdatedAt lm env yy mm = UpdatedAtSource.fromEnvOverride s) ∧
      (lm = [] → (∀ s, env = some s → s = "" ∨ isYmdString s = false) →
        computeUpdatedAt lm env yy mm = UpdatedAtSource.fromMonthLabel yy mm) := by
  intro lm env yy mm
  refine ⟨?_, le_maxMillis, ?_, ?_⟩
  · intro h
    unfold computeUpdatedAt
    rw [if_pos h]
  · intro s hlm henv hs hymd
    subst hlm
    subst henv
    unfold computeUpdatedAt
    rw [if_neg (by simp)]
    have he : s.isEmpty = false := by
      rcases hb : s.isEmpty with _ | _
      · rfl
      · exact absurd (String.isEmpty_iff s |>.mp (by simp [hb])) hs
    simp [he, hymd]
  · intro hlm h
    subst hlm
    unfold computeUpdatedAt
    rw [if_neg (by simp)]
    cases env with
    | none => rfl
    | some s =>
      rcases h s rfl with h' | h'
      · subst h'
        rfl
      · simp [h']

/-- Witness for C6 at concrete inputs for each priority level. -/
theorem updatedAt_priority_witness :
    computeUpdatedAt [5, 9] (some "2025-01-02") 2025 1 =
      UpdatedAtSource.fromLastModified 9 ∧
    computeUpdatedAt [] (some "2025-01-02") 2025 1 =
      UpdatedAtSource.fromEnvOverride "2025-01-02" ∧
    computeUpdatedAt [] (some "not-a-date") 2025 1 =
      UpdatedAtSource.fromMonthLabel 2025 1 :=
  ⟨(updatedAt_priority [5, 9] (some "2025-01-02") 2025 1).1 (by decide),
   (updatedAt_priority [] (some "2025-01-02") 2025 1).2.2.1 "2025-01-02" rfl rfl
     (by decide) (by decide),
   (updatedAt_priority [] (some "not-a-date") 2025 1).2.2.2 rfl
     (fun s hs => by injection hs with h; subst h; exact Or.inr (by decide))⟩

/-- Claim C8: every numeric value in the hard-coded `fallbackMonths`
sample (both `sf` and `condo` of both months) passes the same `sane`
validator as live data — and, for months-of-supply, is already a fixed
point of the one-decimal rounding. -/
theorem fallbackMonths_all_sane :
    ∀ kv ∈ fallbackMonths, statsAllSane kv.2.sf ∧ statsAllSane kv.2.condo := by
  have mois : ∀ n : ℤ, 0 ≤ (n : ℚ)/10 → (n : ℚ)/10 < 50 →
      saneMois (some ((n : ℚ)/10)) = some ((n : ℚ)/10) := fun n h0 h50 => saneMois_tenths h0 h50
  intro kv hkv
  rcases List.mem_cons.mp hkv with h | h
  · subst h
    constructor
    · refine ⟨?_, ?_, ?_, ?_, ?_⟩ <;> intro v hv <;>
        (injection hv with hv'; subst hv')
      · decide
      · decide
      · decide
      · exact mois 21 (by norm_num) (by norm_num)
      · decide
    · refine ⟨?_, ?_, ?_, ?_, ?_⟩ <;> intro v hv <;>
        (injection hv with hv'; subst hv')
      · decide
      · decide
      · decide
      · exact mois 18 (by norm_num) (by norm_num)
      · decide
  · rcases List.mem_cons.mp h with h' | h'
    · subst h'
      constructor
      · refine ⟨?_, ?_, ?_, ?_, ?_⟩ <;> intro v hv <;>
          (injection hv with hv'; subst hv')
        · decide
        · decide
        · decide
        · exact mois 20 (by norm_num) (by norm_num)
        · decide
      · refine ⟨?_, ?_, ?_, ?_, ?_⟩ <;> intro v hv <;>
          (injection hv with hv'; subst hv')
        · decide
        · decide
        · decide
        · exact mois 17 (by norm_num) (by norm_num)
        · decide
    · simp at h'

/-- Witness for C8 at the 2025-09 entry. -/
theorem fallbackMonths_all_sane_witness :
    statsAllSane fbSf2509 :=
  (fallbackMonths_all_sane ("2025-09", ⟨fbSf2509, fbCondo2509, sfUrl, condoUrl⟩)
    (by simp [fallbackMonths])).1

end Waukesha
